import Mathlib

/-!
The USB bridge `boardd` between the board and the message bus.

A shallow embedding of `selfdrive/boardd/boardd.cc`.

* Machine integers are natural numbers; 32-bit unsigned arithmetic is made
  explicit with `% 2 ^ 32`.
* Memory that the program reads through two pointer types (the `uint32_t`
  transfer buffers that are also read and written byte-wise) is a list of
  bytes; a 32-bit word is four bytes, least significant first, as on the
  little-endian hosts the program runs on.
* A thread is the list of actions it performs, as a function of what its
  environment (the board, the message bus, the parameter store) answers.
-/

namespace Boardd

/-! ## Constants -/

/-- The size of the receive buffer in bytes (`RECV_SIZE`). -/
def RECV_SIZE : Nat := 0x1000

/-- The libusb timeout used for every transfer (`TIMEOUT`, 0 = unbounded). -/
def TIMEOUT : Nat := 0

/-- Board code of the no-output safety model. -/
def SAFETY_NOOUTPUT : Nat := 0

/-- Board code of the Honda safety model. -/
def SAFETY_HONDA : Nat := 1

/-- Board code of the Toyota safety model. -/
def SAFETY_TOYOTA : Nat := 2

/-- Board code of the ELM327 safety model. -/
def SAFETY_ELM327 : Nat := 0xE327

/-! ## Words and bytes -/

/-- The four bytes of a 32-bit word in memory, least significant first. -/
def le32 (w : Nat) : List Nat :=
  [w % 256, w / 256 % 256, w / 65536 % 256, w / 16777216 % 256]

/-- The 32-bit word at word index `k` of a byte buffer (`data[k]` for a
`uint32_t *data`). -/
def word (data : List Nat) (k : Nat) : Nat :=
  data.getD (4 * k) 0 + 256 * data.getD (4 * k + 1) 0
    + 65536 * data.getD (4 * k + 2) 0 + 16777216 * data.getD (4 * k + 3) 0

/-! ## Message-bus records -/

/-- Modelled from the spec: the `CanData` record of the generated header
`log.capnp.h`, which is not part of the sources. The fields are the ones the
program reads and writes: `address` (32-bit), `busTime` (16-bit), `dat`
(bytes) and `src` (8-bit). -/
structure CanData where
  address : Nat
  busTime : Nat
  dat : List Nat
  src : Nat
  deriving DecidableEq

/-! ## The send path's encoder (`can_send`, the loop that fills `send`) -/

/-- The value stored in `send[i*4]`: the address word. -/
def send_word0 (address : Nat) : Nat :=
  if address ≥ 0x800 then
    ((address <<< 3) % 2 ^ 32) ||| 5
  else
    ((address <<< 21) % 2 ^ 32) ||| 1

/-- The value stored in `send[i*4+1]`: length and source. -/
def send_word1 (c : CanData) : Nat :=
  (c.dat.length ||| (c.src <<< 4)) % 2 ^ 32

/-- The 16 bytes of the slot of one frame: the slot is zeroed by the `memset`,
then the two words are stored and the payload is copied to byte offset 8. -/
def can_send_slot_bytes (c : CanData) : List Nat :=
  le32 (send_word0 c.address) ++ le32 (send_word1 c) ++ c.dat
    ++ List.replicate (8 - c.dat.length) 0

/-- The 16-byte slot of one frame. `none` is the failure of
`assert(cmsg.getDat().size() <= 8)`. -/
def can_send_slot (c : CanData) : Option (List Nat) :=
  if c.dat.length ≤ 8 then some (can_send_slot_bytes c) else none

/-- The loop `for (i = 0; i < msg_count; i++)` of `can_send`, from index `i`
with `n` iterations left: the slots of `sendcan[i]`, `sendcan[i+1]`, ... one
after the other. `none` is a failed assertion or an index past the end of
`sendcan`. -/
def can_send_fill (sendcan : List CanData) (i : Nat) : Nat → Option (List Nat)
  | 0 => some []
  | n + 1 =>
    match sendcan[i]? with
    | none => none
    | some c =>
      match can_send_slot c with
      | none => none
      | some slot =>
        match can_send_fill sendcan (i + 1) n with
        | none => none
        | some rest => some (slot ++ rest)

/-! ## The receive path's decoder (`can_recv`, the loop that fills `canData`) -/

/-- The decoder's test `data[i*4] & 4`: the frame is an extended one. -/
def recv_extended (w0 : Nat) : Bool := w0 &&& 4 != 0

/-- The address the decoder stores for address word `w0`. -/
def recv_address (w0 : Nat) : Nat :=
  if recv_extended w0 then w0 >>> 3 else w0 >>> 21

/-- The length the decoder uses for the payload: `data[i*4+1] & 0xF`. -/
def recv_len (w1 : Nat) : Nat := w1 &&& 0xF

/-- The frame the decoder builds from slot `i` of the receive buffer `data`
(given as bytes). The payload is `len` bytes starting at `&data[i*4+2]`. -/
def can_recv_frame (data : List Nat) (i : Nat) : CanData :=
  { address := recv_address (word data (i * 4))
    busTime := word data (i * 4 + 1) >>> 16
    dat := (data.drop (4 * (i * 4 + 2))).take (recv_len (word data (i * 4 + 1)))
    src := (word data (i * 4 + 1) >>> 4) &&& 0xff }

/-- The frames `can_recv` publishes for a buffer `data` of which `recv` bytes
were received: `recv / 0x10` frames; nothing is published when `recv <= 0`. -/
def can_recv_frames (data : List Nat) (recv : Int) : Option (List CanData) :=
  if recv ≤ 0 then none
  else some ((List.range (recv / 0x10).toNat).map (can_recv_frame data))

/-! ## The health report (`can_health`) -/

/-- The packed 13-byte `struct health` that the board fills. -/
structure health where
  voltage : Nat
  current : Nat
  started : Nat
  controls_allowed : Nat
  gas_interceptor_detected : Nat
  started_signal_detected : Nat
  started_alt : Nat
  deriving DecidableEq

/-- The `struct health` that overlays the 13 bytes the control transfer wrote:
two little-endian 32-bit words, then five single bytes. -/
def health_of_bytes (b : List Nat) : health :=
  { voltage := word b 0
    current := word b 1
    started := b.getD 8 0
    controls_allowed := b.getD 9 0
    gas_interceptor_detected := b.getD 10 0
    started_signal_detected := b.getD 11 0
    started_alt := b.getD 12 0 }

/-- Modelled from the spec: the `HealthData` record of the generated header
`log.capnp.h`, which is not part of the sources. It has the six fields that
`can_health` sets; the four flags are booleans. -/
structure HealthData where
  voltage : Nat
  current : Nat
  started : Bool
  controlsAllowed : Bool
  gasInterceptorDetected : Bool
  startedSignalDetected : Bool
  deriving DecidableEq

/-- The health record `can_health` publishes for the report `h` read from the
board (the block under `// set fields`). A byte passed to a boolean setter is
true when it is not zero. -/
def can_health_message (spoofing_started : Bool) (h : health) : HealthData :=
  { voltage := h.voltage
    current := h.current
    started := if spoofing_started then true else h.started != 0
    controlsAllowed := h.controls_allowed != 0
    gasInterceptorDetected := h.gas_interceptor_detected != 0
    startedSignalDetected := h.started_signal_detected != 0 }

/-! ## The envelope of the message bus (`cereal::Event`) -/

/-- Modelled from the spec: the `Event` envelope of the generated header
`log.capnp.h`, which is not part of the sources. An envelope is a tagged
record with one shape: the frames of the `can` field, the frames of the
`sendcan` field, a health report, or a thermal report with its fan speed. -/
inductive Event where
  | can (frames : List CanData)
  | sendcan (frames : List CanData)
  | health (h : HealthData)
  | thermal (fanSpeed : Nat)
  deriving DecidableEq

/-- The part of the generated header `log.capnp.h` that the sources do not
fix, taken as a parameter: what the accessors `getCan()` and `getSendcan()`
return on an envelope of another shape than their own. `none` is an accessor
that throws. -/
structure Accessors where
  can_of_other : Event → Option (List CanData)
  sendcan_of_other : Event → Option (List CanData)

/-- The accessor `event.getCan()`: the frames of a `can` envelope; on another
envelope, what the header decides. -/
def getCan (acc : Accessors) : Event → Option (List CanData)
  | .can frames => some frames
  | e => acc.can_of_other e

/-- The accessor `event.getSendcan()`: the frames of a `sendcan` envelope; on
another envelope, what the header decides. -/
def getSendcan (acc : Accessors) : Event → Option (List CanData)
  | .sendcan frames => some frames
  | e => acc.sendcan_of_other e

/-- The number of frames `can_send` allocates and encodes:
`int msg_count = event.getCan().size()`. `none` is an accessor that throws. -/
def can_send_msg_count (acc : Accessors) (event : Event) : Option Nat :=
  (getCan acc event).map List.length

/-- The buffer `send` that `can_send` hands to the bulk transfer: `msg_count`
slots, zeroed and then filled from `event.getSendcan()[i]`; `getSendcan()` is
called in the loop body only. `none` is an accessor that throws or a failed
assertion. -/
def can_send_buffer (acc : Accessors) (event : Event) : Option (List Nat) :=
  match can_send_msg_count acc event with
  | none => none
  | some 0 => some []
  | some (n + 1) =>
    match getSendcan acc event with
    | none => none
    | some sendcan => can_send_fill sendcan 0 (n + 1)

/-! ## Actions of a thread -/

/-- The flags `main` derives from the environment, and whether the program was
compiled for x86_64. -/
structure Globals where
  spoofing_started : Bool
  fake_send : Bool
  loopback_can : Bool
  x86_64 : Bool
  deriving DecidableEq

/-- The messages the program logs. -/
inductive LogMsg where
  | waiting_for_params
  | got_car_params
  | setting_safety_model
  | unknown_safety_model
  | not_enabling_charging
  | attempting_to_connect
  | connected_to_board
  | usb_error (err : Int)
  | lost_connection
  | overflow (recv : Int)
  | starting_boardd
  | start_thread
  deriving DecidableEq

/-- The threads the program creates. -/
inductive Thread where
  | safety_setter
  | can_health
  | can_send
  | can_recv
  | thermal
  deriving DecidableEq

/-- What a thread does, as far as the board, the lock, the other threads and
the message bus can see it. -/
inductive Action where
  | lock
  | unlock
  | open_device
  | set_configuration
  | claim_interface
  | control (bmRequestType bRequest wValue wLength : Nat)
  | bulk_in (endpoint length : Nat)
  | bulk_out (endpoint : Nat) (data : List Nat)
  | pthread_create (t : Thread)
  | pthread_join (t : Thread)
  | reset_safety_handle
  | read_db_value
  | usleep (us : Nat)
  | log (m : LogMsg)
  | zmq_recv
  | publish_can (frames : List CanData)
  | publish_health (h : HealthData)
  | libusb_init
  | libusb_close
  deriving DecidableEq

/-- A control or bulk transfer on the device handle. -/
def Action.is_transfer : Action → Bool
  | .control _ _ _ _ => true
  | .bulk_in _ _ => true
  | .bulk_out _ _ => true
  | _ => false

/-- The lock discipline along a thread's actions: `held` says whether the
thread holds `usb_lock`; every transfer must find it held. -/
def locked_ok : Bool → List Action → Bool
  | _, [] => true
  | _, .lock :: rest => locked_ok true rest
  | _, .unlock :: rest => locked_ok false rest
  | held, a :: rest => (!a.is_transfer || held) && locked_ok held rest

/-- Whether the thread holds `usb_lock` after the actions. -/
def held_after : Bool → List Action → Bool
  | held, [] => held
  | _, .lock :: rest => held_after true rest
  | _, .unlock :: rest => held_after false rest
  | held, _ :: rest => held_after held rest

/-- No action takes or releases `usb_lock`. -/
def lock_free (t : List Action) : Bool :=
  t.all fun a => a != .lock && a != .unlock

/-- The transfers that set the safety model (`bRequest` 0xDC) carry one of the
four board codes. -/
def Action.safety_code_ok : Action → Bool
  | .control _ bRequest wValue _ =>
    bRequest != 0xdc || (wValue == 0 || wValue == 1 || wValue == 2 || wValue == 0xE327)
  | _ => true

/-- Every transfer among the actions that sets the safety model carries one of
the four board codes. -/
def safety_codes_ok (t : List Action) : Bool :=
  t.all fun a => a.safety_code_ok

/-- A transfer that sets the safety model. -/
def Action.is_safety_transfer : Action → Bool
  | .control _ bRequest _ _ => bRequest == 0xdc
  | _ => false

/-! ## The safety gate (`safety_setter_thread`) -/

/-- Modelled from the spec: the enumeration `cereal::CarParams::SafetyModels`
of the generated header `car.capnp.h`, which is not part of the sources.
`unknown` is any enumerant the `switch` does not name. -/
inductive SafetyModels where
  | NO_OUTPUT
  | HONDA
  | TOYOTA
  | ELM327
  | unknown
  deriving DecidableEq

/-- The `switch` of `safety_setter_thread`: the value of `safety_setting`
after it (initialised to 0) and what it logs. -/
def safety_switch : SafetyModels → Nat × List Action
  | .NO_OUTPUT => (SAFETY_NOOUTPUT, [])
  | .HONDA => (SAFETY_HONDA, [])
  | .TOYOTA => (SAFETY_TOYOTA, [])
  | .ELM327 => (SAFETY_ELM327, [])
  | .unknown => (0, [.log .unknown_safety_model])

/-- The value of `safety_setting` after the `switch`. -/
def safety_setting (m : SafetyModels) : Nat := (safety_switch m).1

/-- What the polling loop of the gate meets: `do_exit` after `polls` empty
reads of the parameter store, or the parameters, with their safety model,
after `polls` empty reads. -/
inductive ParamsOutcome where
  | exit (polls : Nat)
  | params (polls : Nat) (safety_model : SafetyModels)
  deriving DecidableEq

/-- One round of the polling loop that finds no parameters. -/
def empty_poll : List Action := [.read_db_value, .usleep 100000]

/-- The actions of `safety_setter_thread`. -/
def safety_setter_thread : ParamsOutcome → List Action
  | .exit polls =>
    [.log .waiting_for_params] ++ (List.replicate polls empty_poll).flatten
  | .params polls safety_model =>
    [.log .waiting_for_params] ++ (List.replicate polls empty_poll).flatten
      ++ [.read_db_value, .log .got_car_params, .log .setting_safety_model]
      ++ (safety_switch safety_model).2
      ++ [.lock, .reset_safety_handle,
          .control 0x40 0xdc (safety_switch safety_model).1 0, .unlock]

/-! ## Connecting (`usb_connect`, `usb_retry_connect`, `handle_usb_issue`) -/

/-- How a call of `usb_connect` goes: one of the three `goto fail`s, or
through. -/
inductive ConnectResult where
  | open_failed
  | set_configuration_failed
  | claim_failed
  | connected
  deriving DecidableEq

/-- The transfers of `usb_connect` once the interface is claimed. -/
def usb_connect_arm (g : Globals) : List Action :=
  (if g.loopback_can then [.control 0xc0 0xe5 1 0] else [])
    ++ [.control 0xc0 0xd9 0 0]
    ++ (if g.x86_64 then [.log .not_enabling_charging] else [.control 0xc0 0xe6 1 0])
    ++ [.control 0x40 0xdc SAFETY_NOOUTPUT 0]

/-- The function `usb_connect`: its return value, the value of
`safety_setter_thread_handle` after it, and its actions. `handle` is the value
of `safety_setter_thread_handle` before, `tid` the identifier `pthread_create`
stores when the gate is created. -/
def usb_connect (g : Globals) (handle : Int) (r : ConnectResult) (tid : Nat) :
    Bool × Int × List Action :=
  match r with
  | .open_failed => (false, handle, [.open_device])
  | .set_configuration_failed => (false, handle, [.open_device, .set_configuration])
  | .claim_failed =>
    (false, handle, [.open_device, .set_configuration, .claim_interface])
  | .connected =>
    if handle = -1 then
      (true, (tid : Int),
        [.open_device, .set_configuration, .claim_interface] ++ usb_connect_arm g
          ++ [.pthread_create .safety_setter])
    else
      (true, handle, [.open_device, .set_configuration, .claim_interface] ++ usb_connect_arm g)

/-- The loop `while (!usb_connect()) usleep(100*1000)` over the attempts the
environment answers; the second component says whether the loop has ended. -/
def usb_retry_loop (g : Globals) (handle : Int) (tid : Nat) :
    List ConnectResult → List Action × Bool
  | [] => ([], false)
  | r :: rs =>
    if (usb_connect g handle r tid).1 then
      ((usb_connect g handle r tid).2.2, true)
    else
      ((usb_connect g handle r tid).2.2 ++ [.usleep 100000]
        ++ (usb_retry_loop g (usb_connect g handle r tid).2.1 tid rs).1,
       (usb_retry_loop g (usb_connect g handle r tid).2.1 tid rs).2)

/-- What a reconnect meets: the value of `safety_setter_thread_handle` at that
time, the attempts, and the identifier of a gate thread it creates. -/
structure Reconnect where
  handle : Int
  attempts : List ConnectResult
  tid : Nat
  deriving DecidableEq

/-- The function `usb_retry_connect`: its actions and whether it returned. -/
def usb_retry_connect (g : Globals) (rc : Reconnect) : List Action × Bool :=
  ([.log .attempting_to_connect] ++ (usb_retry_loop g rc.handle rc.tid rc.attempts).1
    ++ (if (usb_retry_loop g rc.handle rc.tid rc.attempts).2
        then [.log .connected_to_board] else []),
   (usb_retry_loop g rc.handle rc.tid rc.attempts).2)

/-- The function `handle_usb_issue`: its actions and whether it returned. -/
def handle_usb_issue (g : Globals) (err : Int) (rc : Reconnect) : List Action × Bool :=
  if err = -4 then
    ([.log (.usb_error err), .log .lost_connection] ++ (usb_retry_connect g rc).1,
     (usb_retry_connect g rc).2)
  else
    ([.log (.usb_error err)], true)

/-! ## The receive pump (`can_recv`) -/

/-- What a bulk transfer answers: the return value `err`, the byte count
written to `recv` or `sent`, and what a reconnect meets if the program starts
one. -/
structure BulkResult where
  err : Int
  transferred : Int
  reconnect : Reconnect
  deriving DecidableEq

/-- The body of the `do ... while` loop of `can_recv` for one answer of the
board: the transfer, `handle_usb_issue` when `err` is not 0, the overflow log
when `err` is -8; the second component says whether the body came to its end. -/
def can_recv_round (g : Globals) (r : BulkResult) : List Action × Bool :=
  if r.err ≠ 0 then
    if (handle_usb_issue g r.err r.reconnect).2 then
      ([.bulk_in 0x81 RECV_SIZE] ++ (handle_usb_issue g r.err r.reconnect).1
        ++ (if r.err = -8 then [.log (.overflow r.transferred)] else []), true)
    else
      ([.bulk_in 0x81 RECV_SIZE] ++ (handle_usb_issue g r.err r.reconnect).1, false)
  else
    ([.bulk_in 0x81 RECV_SIZE], true)

/-- The `do ... while (err != 0)` loop of `can_recv` over the answers of the
board, with its `break` on `err == -7`: its actions, and the value of `recv`
when the loop has ended. -/
def can_recv_loop (g : Globals) : List BulkResult → List Action × Option Int
  | [] => ([], none)
  | r :: rs =>
    if (can_recv_round g r).2 = false then ((can_recv_round g r).1, none)
    else if r.err = -7 then ((can_recv_round g r).1, some r.transferred)
    else if r.err ≠ 0 then
      ((can_recv_round g r).1 ++ (can_recv_loop g rs).1, (can_recv_loop g rs).2)
    else ((can_recv_round g r).1, some r.transferred)

/-- The function `can_recv`: its actions and whether it returned. `data` is
the content of the receive buffer after the transfers. -/
def can_recv (g : Globals) (rs : List BulkResult) (data : List Nat) : List Action × Bool :=
  match (can_recv_loop g rs).2 with
  | none => ([.lock] ++ (can_recv_loop g rs).1, false)
  | some recv =>
    match can_recv_frames data recv with
    | none => ([.lock] ++ (can_recv_loop g rs).1 ++ [.unlock], true)
    | some frames =>
      ([.lock] ++ (can_recv_loop g rs).1 ++ [.unlock, .publish_can frames], true)

/-! ## The health pump (`can_health`) -/

/-- What the health control transfer answers: its return value `cnt`, and what
a reconnect meets if the program starts one. -/
structure ControlResult where
  cnt : Int
  reconnect : Reconnect
  deriving DecidableEq

/-- The body of the `do ... while` loop of `can_health` for one answer of the
board: the transfer, and `handle_usb_issue` when `cnt` is not 13; the second
component says whether the body came to its end. -/
def can_health_round (g : Globals) (r : ControlResult) : List Action × Bool :=
  if r.cnt ≠ 13 then
    ([.control 0xc0 0xd2 0 13] ++ (handle_usb_issue g r.cnt r.reconnect).1,
     (handle_usb_issue g r.cnt r.reconnect).2)
  else
    ([.control 0xc0 0xd2 0 13], true)

/-- The `do ... while (cnt != sizeof(health))` loop of `can_health`: its
actions and whether the loop has ended. -/
def can_health_loop (g : Globals) : List ControlResult → List Action × Bool
  | [] => ([], false)
  | r :: rs =>
    if (can_health_round g r).2 = false then ((can_health_round g r).1, false)
    else if r.cnt ≠ 13 then
      ((can_health_round g r).1 ++ (can_health_loop g rs).1, (can_health_loop g rs).2)
    else ((can_health_round g r).1, true)

/-- The function `can_health`: its actions and whether it returned. `report`
is the 13 bytes the last control transfer wrote. -/
def can_health (g : Globals) (rs : List ControlResult) (report : List Nat) :
    List Action × Bool :=
  if (can_health_loop g rs).2 then
    ([.lock] ++ (can_health_loop g rs).1
      ++ [.unlock,
          .publish_health (can_health_message g.spoofing_started (health_of_bytes report))],
     true)
  else
    ([.lock] ++ (can_health_loop g rs).1, false)

/-! ## The send pump (`can_send`) -/

/-- The body of the `do ... while` loop of `can_send` for one answer of the
board: the transfer of the whole buffer, and `handle_usb_issue` when `err` is
not 0 or `sent` is not `msg_count*0x10`; the second component says whether the
body came to its end. -/
def can_send_round (g : Globals) (send : List Nat) (msg_count : Nat) (r : BulkResult) :
    List Action × Bool :=
  if r.err ≠ 0 ∨ (msg_count : Int) * 0x10 ≠ r.transferred then
    ([.bulk_out 3 send] ++ (handle_usb_issue g r.err r.reconnect).1,
     (handle_usb_issue g r.err r.reconnect).2)
  else
    ([.bulk_out 3 send], true)

/-- The `do ... while (err != 0)` loop of `can_send` over the answers of the
board: its actions and whether the loop has ended. -/
def can_send_loop (g : Globals) (send : List Nat) (msg_count : Nat) :
    List BulkResult → List Action × Bool
  | [] => ([], false)
  | r :: rs =>
    if (can_send_round g send msg_count r).2 = false then
      ((can_send_round g send msg_count r).1, false)
    else if r.err ≠ 0 then
      ((can_send_round g send msg_count r).1 ++ (can_send_loop g send msg_count rs).1,
       (can_send_loop g send msg_count rs).2)
    else
      ((can_send_round g send msg_count r).1, true)

/-- The function `can_send` for the envelope `event`: its actions and whether
it returned. An accessor that throws or a failed assertion ends the process. -/
def can_send (g : Globals) (acc : Accessors) (event : Event) (rs : List BulkResult) :
    List Action × Bool :=
  match can_send_msg_count acc event, can_send_buffer acc event with
  | some msg_count, some send =>
    if g.fake_send then
      ([.zmq_recv, .lock, .unlock], true)
    else if (can_send_loop g send msg_count rs).2 then
      ([.zmq_recv, .lock] ++ (can_send_loop g send msg_count rs).1 ++ [.unlock], true)
    else
      ([.zmq_recv, .lock] ++ (can_send_loop g send msg_count rs).1, false)
  | _, _ => ([.zmq_recv], false)

/-! ## Threads -/

/-- A loop `while (!do_exit) body` followed by `pause`, over what the rounds
meet; the loop ends when the rounds are used up (`do_exit` is seen). A round
that does not return ends the actions. -/
def thread_loop {ε : Type} (body : ε → List Action × Bool) (pause : List Action) :
    List ε → List Action × Bool
  | [] => ([], true)
  | e :: es =>
    if (body e).2 then
      ((body e).1 ++ pause ++ (thread_loop body pause es).1, (thread_loop body pause es).2)
    else
      ((body e).1, false)

/-- The thread `can_recv_thread`. -/
def can_recv_thread (g : Globals) (rounds : List (List BulkResult × List Nat)) :
    List Action × Bool :=
  ([.log .start_thread]
    ++ (thread_loop (fun e => can_recv g e.1 e.2) [.usleep 5000] rounds).1,
   (thread_loop (fun e => can_recv g e.1 e.2) [.usleep 5000] rounds).2)

/-- The thread `can_send_thread`. -/
def can_send_thread (g : Globals) (acc : Accessors)
    (rounds : List (Event × List BulkResult)) : List Action × Bool :=
  ([.log .start_thread] ++ (thread_loop (fun e => can_send g acc e.1 e.2) [] rounds).1,
   (thread_loop (fun e => can_send g acc e.1 e.2) [] rounds).2)

/-- The thread `can_health_thread`. -/
def can_health_thread (g : Globals) (rounds : List (List ControlResult × List Nat)) :
    List Action × Bool :=
  ([.log .start_thread]
    ++ (thread_loop (fun e => can_health g e.1 e.2) [.usleep 1000000] rounds).1,
   (thread_loop (fun e => can_health g e.1 e.2) [.usleep 1000000] rounds).2)

/-- One round of the loop of `thermal_thread` for a received envelope;
`fan_speed` is the value of `event.getThermal().getFanSpeed()`, stored in a
`uint16_t`. -/
def thermal_round (fan_speed : Nat) : List Action :=
  [.zmq_recv, .lock, .control 0xc0 0xd3 (fan_speed % 2 ^ 16) 0, .unlock]

/-- The thread `thermal_thread`: a round for each envelope, then the transfer
that turns the fan off. -/
def thermal_thread (fan_speeds : List Nat) : List Action :=
  [.log .start_thread] ++ (fan_speeds.map thermal_round).flatten ++ [.control 0xc0 0xd3 0 0]

/-- The function `main` up to the end of the program: the first connect, the
four threads, the joins. `safety_setter_thread_handle` is -1 at the start. -/
def main_thread (g : Globals) (attempts : List ConnectResult) (tid : Nat) :
    List Action × Bool :=
  if (usb_retry_connect g ⟨-1, attempts, tid⟩).2 then
    ([.log .starting_boardd, .libusb_init] ++ (usb_retry_connect g ⟨-1, attempts, tid⟩).1
      ++ [.pthread_create .can_health, .pthread_create .can_send,
          .pthread_create .can_recv, .pthread_create .thermal,
          .pthread_join .thermal, .pthread_join .can_recv,
          .pthread_join .can_send, .pthread_join .can_health, .libusb_close],
     true)
  else
    ([.log .starting_boardd, .libusb_init] ++ (usb_retry_connect g ⟨-1, attempts, tid⟩).1,
     false)

/-- Once a thread has been created, no transfer follows. -/
def transfers_before_threads : List Action → Bool
  | [] => true
  | .pthread_create _ :: rest => rest.all fun a => !a.is_transfer
  | _ :: rest => transfers_before_threads rest

/-! ## The life of the safety gate -/

/-- The state that decides whether the gate is created:
`safety_setter_thread_handle`, the number of gate threads that were created
and have not returned, the number created so far, and the number that ran
their last block. -/
structure GateState where
  safety_setter_thread_handle : Int
  alive : Nat
  spawned : Nat
  finished : Nat
  deriving DecidableEq

/-- The start of the program: the handle is -1 and there is no gate. -/
def GateState.init : GateState :=
  { safety_setter_thread_handle := -1, alive := 0, spawned := 0, finished := 0 }

/-- The events that touch `safety_setter_thread_handle`: a call of
`usb_connect` (the first one or one of a reconnect), a gate thread that runs
its last block (lock, reset of the handle, transfer, unlock), and a gate
thread that returns because `do_exit` is set. -/
inductive GateEvent where
  | connect (r : ConnectResult) (tid : Nat)
  | gate_finishes
  | gate_exits
  deriving DecidableEq

/-- The number of gate threads the actions create. -/
def gates_created (t : List Action) : Nat :=
  t.count (.pthread_create .safety_setter)

/-- One event. The two events of a gate thread need a gate thread that has
not returned. -/
def gate_step (g : Globals) (s : GateState) : GateEvent → GateState
  | .connect r tid =>
    { s with
      safety_setter_thread_handle := (usb_connect g s.safety_setter_thread_handle r tid).2.1
      alive := s.alive + gates_created (usb_connect g s.safety_setter_thread_handle r tid).2.2
      spawned := s.spawned
        + gates_created (usb_connect g s.safety_setter_thread_handle r tid).2.2 }
  | .gate_finishes =>
    if s.alive = 0 then s
    else { s with safety_setter_thread_handle := -1, alive := s.alive - 1,
                  finished := s.finished + 1 }
  | .gate_exits =>
    if s.alive = 0 then s else { s with alive := s.alive - 1 }

/-- A run of events from a state. -/
def gate_run (g : Globals) (s : GateState) (events : List GateEvent) : GateState :=
  events.foldl (gate_step g) s

/-- What holds of the state of the gate along every run: while the handle is
-1 no gate thread is pending, at most one gate thread is pending, and the
gates created are at most one more than the gates that ran their last block
(one less while the handle is -1). -/
def gate_inv (s : GateState) : Prop :=
  (s.safety_setter_thread_handle = -1 → s.alive = 0) ∧ s.alive ≤ 1
    ∧ s.spawned + (if s.safety_setter_thread_handle = -1 then 1 else 0) ≤ s.finished + 1

/-! ## Predicates on the actions of a thread -/

/-- A pump call keeps the lock discipline: every transfer under the lock, the
lock released when the call returns, and only board codes sent. -/
def disciplined (r : List Action × Bool) : Prop :=
  locked_ok false r.1 = true ∧ (r.2 = true → held_after false r.1 = false)
    ∧ safety_codes_ok r.1 = true

/-- No action is a transfer. -/
def transfer_free (t : List Action) : Bool :=
  t.all fun a => !a.is_transfer

/-- A creation of a thread. -/
def Action.is_create : Action → Bool
  | .pthread_create _ => true
  | _ => false

/-- No action creates a thread. -/
def create_free (t : List Action) : Bool :=
  t.all fun a => !a.is_create

/-! ## Concrete inputs -/

/-- The frame of scenario 1. -/
def scenario1_frame : CanData :=
  { address := 0x7E8, busTime := 0x1234, dat := [0x02, 0x01, 0x0C], src := 0 }

/-- The accessors of a header in which the two frame lists share their place
in the envelope: `getCan()` on a `sendcan` envelope returns its frames, and
`getSendcan()` on a `can` envelope returns its frames. -/
def shared_slot : Accessors :=
  { can_of_other := fun e =>
      match e with
      | .sendcan frames => some frames
      | _ => none
    sendcan_of_other := fun e =>
      match e with
      | .can frames => some frames
      | _ => none }

/-- A received batch of two wire frames (32 bytes). The length nibble of the
first frame is 15. -/
def oversized_batch : List Nat :=
  [0x01, 0x00, 0x00, 0x00, 0x0F, 0x00, 0x00, 0x00, 1, 2, 3, 4, 5, 6, 7, 8,
   0xA1, 0xA2, 0xA3, 0xA4, 0x12, 0xB2, 0xB3, 0xB4, 9, 9, 0, 0, 0, 0, 0, 0]

/-- A health report of the board with `started = 0` and `started_alt = 0`. -/
def health_sample : health :=
  { voltage := 12000, current := 500, started := 0, controls_allowed := 1,
    gas_interceptor_detected := 0, started_signal_detected := 1, started_alt := 0 }

/-- No flag set, built for the device. -/
def plain_globals : Globals :=
  { spoofing_started := false, fake_send := false, loopback_can := false, x86_64 := false }

/-- A reconnect that goes through at once while a gate thread is pending. -/
def quiet_reconnect : Reconnect := { handle := 7, attempts := [.connected], tid := 8 }

/-- A frame with address 0x200 and two data bytes. -/
def one_frame : CanData := { address := 0x200, busTime := 0, dat := [1, 2], src := 0 }

/-- A `sendcan` envelope with one frame. -/
def one_frame_envelope : Event := .sendcan [one_frame]

/-- The 16 bytes of the slot of `one_frame`. -/
def one_frame_buffer : List Nat :=
  [0x01, 0, 0, 0x40, 2, 0, 0, 0, 1, 2, 0, 0, 0, 0, 0, 0]

/-! ## Arithmetic of the bit operations -/

theorem or_low_bits (a b n : Nat) (h : b < 2 ^ n) : (a <<< n) ||| b = a * 2 ^ n + b := by
  rw [Nat.shiftLeft_eq, Nat.mul_comm, Nat.mul_add_lt_is_or h]

theorem and_four (x : Nat) : x &&& 4 = if x / 4 % 2 = 1 then 4 else 0 := by
  have h := Nat.and_two_pow x 2
  rw [Nat.testBit_to_div_mod] at h
  have h4 : (2 : Nat) ^ 2 = 4 := by norm_num
  rw [h4] at h
  rw [h]
  by_cases hx : x / 4 % 2 = 1 <;> simp [hx]

theorem and_fifteen (x : Nat) : x &&& 0xF = x % 16 := by
  have h := Nat.and_pow_two_sub_one_eq_mod x 4
  simpa using h

theorem and_byte (x : Nat) : x &&& 0xff = x % 256 := by
  have h := Nat.and_pow_two_sub_one_eq_mod x 8
  simpa using h

theorem send_word0_extended (a : Nat) (h : a < 2 ^ 29) (hx : 0x800 ≤ a) :
    send_word0 a = a * 8 + 5 := by
  have h1 : (a <<< 3) % 2 ^ 32 = a <<< 3 := by
    rw [Nat.shiftLeft_eq]; omega
  have h2 := or_low_bits a 5 3 (by norm_num)
  simp only [send_word0, ge_iff_le, hx, if_true, h1, h2]
  norm_num

theorem send_word0_normal (a : Nat) (hx : a < 0x800) :
    send_word0 a = a * 2097152 + 1 := by
  have h1 : (a <<< 21) % 2 ^ 32 = a <<< 21 := by
    rw [Nat.shiftLeft_eq]; omega
  have h2 := or_low_bits a 1 21 (by norm_num)
  have h3 : ¬ (0x800 ≤ a) := by omega
  simp only [send_word0, ge_iff_le, h3, if_false, h1, h2]
  norm_num

theorem send_word0_lt (a : Nat) (h : a < 2 ^ 29) : send_word0 a < 2 ^ 32 := by
  by_cases hx : 0x800 ≤ a
  · rw [send_word0_extended a h hx]; omega
  · rw [send_word0_normal a (by omega)]; omega

theorem recv_extended_eq (x : Nat) : recv_extended x = decide (x / 4 % 2 = 1) := by
  unfold recv_extended
  rw [and_four]
  by_cases hx : x / 4 % 2 = 1 <;> simp [hx]

theorem recv_address_send_word0 (a : Nat) (h : a < 2 ^ 29) :
    recv_address (send_word0 a) = a := by
  by_cases hx : 0x800 ≤ a
  · rw [send_word0_extended a h hx]
    have h4 : (a * 8 + 5) / 4 % 2 = 1 := by omega
    simp only [recv_address, recv_extended_eq, h4, decide_True, if_true,
      Nat.shiftRight_eq_div_pow]
    norm_num
    omega
  · rw [send_word0_normal a (by omega)]
    have h4 : ¬ ((a * 2097152 + 1) / 4 % 2 = 1) := by omega
    simp only [recv_address, recv_extended_eq, h4, decide_False, if_false,
      Nat.shiftRight_eq_div_pow]
    norm_num
    omega

theorem send_word1_eq (c : CanData) (hl : c.dat.length ≤ 8) (hs : c.src < 256) :
    send_word1 c = c.src * 16 + c.dat.length := by
  have h2 := or_low_bits c.src c.dat.length 4 (by norm_num; omega)
  rw [send_word1, Nat.lor_comm, h2]
  norm_num
  omega

theorem word_le32_zero (w : Nat) (rest : List Nat) (h : w < 2 ^ 32) :
    word (le32 w ++ rest) 0 = w := by
  simp [word, le32]
  omega

theorem word_le32_one (v w : Nat) (rest : List Nat) (h : w < 2 ^ 32) :
    word (le32 v ++ le32 w ++ rest) 1 = w := by
  simp [word, le32]
  omega

/-! ## The codec -/

theorem can_send_slot_length (c : CanData) (slot : List Nat)
    (h : can_send_slot c = some slot) : slot.length = 16 := by
  unfold can_send_slot at h
  split at h
  · simp only [Option.some.injEq] at h
    subst h
    simp [can_send_slot_bytes, le32]
    omega
  · simp at h

theorem can_recv_frame_slot (f : CanData) (rest : List Nat) (ha : f.address < 2 ^ 29)
    (hs : f.src < 256) (hl : f.dat.length ≤ 8) :
    can_recv_frame (le32 (send_word0 f.address) ++ le32 (send_word1 f) ++ f.dat
      ++ List.replicate (8 - f.dat.length) 0 ++ rest) 0
      = { f with busTime := 0 } := by
  have h0 := send_word0_lt f.address ha
  have h1 := send_word1_eq f hl hs
  have hw1 : send_word1 f < 2 ^ 32 := by omega
  have e0 : word (le32 (send_word0 f.address) ++ le32 (send_word1 f) ++ f.dat
      ++ List.replicate (8 - f.dat.length) 0 ++ rest) 0 = send_word0 f.address := by
    rw [List.append_assoc, List.append_assoc, List.append_assoc]
    exact word_le32_zero _ _ h0
  have e1 : word (le32 (send_word0 f.address) ++ le32 (send_word1 f) ++ f.dat
      ++ List.replicate (8 - f.dat.length) 0 ++ rest) 1 = send_word1 f := by
    rw [List.append_assoc, List.append_assoc]
    exact word_le32_one _ _ _ hw1
  have ed : (List.drop 8 (le32 (send_word0 f.address) ++ le32 (send_word1 f) ++ f.dat
      ++ List.replicate (8 - f.dat.length) 0 ++ rest)).take f.dat.length = f.dat := by
    simp [le32]
  have hlen : recv_len (send_word1 f) = f.dat.length := by
    rw [recv_len, and_fifteen, h1]; omega
  have hsrc : (send_word1 f >>> 4) &&& 0xff = f.src := by
    rw [and_byte, Nat.shiftRight_eq_div_pow, h1]; norm_num; omega
  have hbt : send_word1 f >>> 16 = 0 := by
    rw [Nat.shiftRight_eq_div_pow, h1]; norm_num; omega
  simp only [can_recv_frame, Nat.zero_mul, Nat.zero_add, e0, e1, hlen, hsrc, hbt,
    recv_address_send_word0 f.address ha]
  simp only [Nat.mul_zero, Nat.zero_add] at ed ⊢
  rw [show 4 * 2 = 8 from rfl, ed]

/-- C1 (as the code has it): for every frame with a 29-bit address, an 8-bit
source and at most 8 data bytes, the encoder of `can_send` produces a 16-byte
slot, and the decoder of `can_recv` reads from it the same address, source and
data, with bus time 0: the encoder does not write the bus time. The same holds
through the envelope: a `sendcan` envelope holding the frame yields that slot
as its buffer (with the frame lists sharing their place in the envelope) and
the decoder yields the one frame back from 16 received bytes. -/
theorem can_round_trip_drops_bus_time (f : CanData) (ha : f.address < 2 ^ 29)
    (hs : f.src < 256) (hl : f.dat.length ≤ 8) :
    ∃ slot, can_send_slot f = some slot ∧ slot.length = 16
      ∧ can_recv_frame slot 0 = { f with busTime := 0 }
      ∧ can_send_buffer shared_slot (.sendcan [f]) = some slot
      ∧ can_recv_frames slot 16 = some [{ f with busTime := 0 }] := by
  have hrt := can_recv_frame_slot f [] ha hs hl
  rw [List.append_nil] at hrt
  have hslot : can_send_slot f = some (can_send_slot_bytes f) := if_pos hl
  refine ⟨can_send_slot_bytes f, hslot, can_send_slot_length f _ hslot, hrt, ?_, ?_⟩
  · show (match can_send_slot f with
        | none => none
        | some slot => some (slot ++ [])) = some (can_send_slot_bytes f)
    simp only [hslot, List.append_nil]
  · have h16 : ((16 : Int) / 0x10).toNat = 1 := by decide
    have hr : List.range 1 = [0] := rfl
    have hn : ¬ ((16 : Int) ≤ 0) := by decide
    simp only [can_recv_frames, h16, hr, hn, if_false, List.map_cons, List.map_nil]
    exact congrArg (fun x => some [x]) hrt

/-- C1, witness: the round trip at the frame of scenario 1 with bus time 0. -/
theorem can_round_trip_drops_bus_time_witness :
    (0x7E8 < 2 ^ 29 ∧ (0 : Nat) < 256 ∧ [0x02, 0x01, 0x0C].length ≤ 8) ∧
    ∃ slot, can_send_slot ⟨0x7E8, 0, [0x02, 0x01, 0x0C], 0⟩ = some slot ∧ slot.length = 16
      ∧ can_recv_frame slot 0 = { (⟨0x7E8, 0, [0x02, 0x01, 0x0C], 0⟩ : CanData) with busTime := 0 }
      ∧ can_send_buffer shared_slot (.sendcan [⟨0x7E8, 0, [0x02, 0x01, 0x0C], 0⟩]) = some slot
      ∧ can_recv_frames slot 16
          = some [{ (⟨0x7E8, 0, [0x02, 0x01, 0x0C], 0⟩ : CanData) with busTime := 0 }] :=
  ⟨by decide,
   can_round_trip_drops_bus_time ⟨0x7E8, 0, [0x02, 0x01, 0x0C], 0⟩ (by decide) (by decide)
     (by decide)⟩

/-- C1 fails as stated: the frame of scenario 1 satisfies the invariant of the
data model, its slot has word 1 equal to 3 (not 0x12340003), and the decoder
reads bus time 0 from it, not 0x1234. -/
theorem scenario1_bus_time_lost :
    scenario1_frame.address < 2 ^ 11 ∧ scenario1_frame.busTime < 2 ^ 16
      ∧ scenario1_frame.src < 2 ^ 8 ∧ scenario1_frame.dat.length ≤ 8
      ∧ can_send_slot scenario1_frame
          = some [0x01, 0, 0, 0xFD, 3, 0, 0, 0, 2, 1, 0xC, 0, 0, 0, 0, 0]
      ∧ (can_send_slot scenario1_frame).map (fun slot => can_recv_frame slot 0)
          = some { scenario1_frame with busTime := 0 }
      ∧ (can_send_slot scenario1_frame).map (fun slot => can_recv_frame slot 0)
          ≠ some scenario1_frame := by
  decide

/-- C2: for every address below 2^29, an address of at least 0x800 is written
as `(a << 3) | 5`, a 32-bit word whose low three bits are 101, which the
decoder classifies as extended and from which it recovers the address as the
word shifted right by 3; an address below 0x800 is written as `(a << 21) | 1`,
a 32-bit word whose low two bits are 01 and whose bit 2 is clear, which the
decoder classifies as normal and from which it recovers the address as the
word shifted right by 21. -/
theorem address_word_round_trip (a : Nat) (h : a < 2 ^ 29) :
    (0x800 ≤ a →
      send_word0 a = (a <<< 3) ||| 5 ∧ send_word0 a < 2 ^ 32 ∧ send_word0 a % 8 = 5
        ∧ recv_extended (send_word0 a) = true
        ∧ recv_address (send_word0 a) = send_word0 a >>> 3 ∧ send_word0 a >>> 3 = a)
    ∧ (a < 0x800 →
      send_word0 a = (a <<< 21) ||| 1 ∧ send_word0 a < 2 ^ 32 ∧ send_word0 a % 4 = 1
        ∧ send_word0 a / 4 % 2 = 0 ∧ recv_extended (send_word0 a) = false
        ∧ recv_address (send_word0 a) = send_word0 a >>> 21 ∧ send_word0 a >>> 21 = a) := by
  have hlt := send_word0_lt a h
  have hrt := recv_address_send_word0 a h
  constructor
  · intro hx
    have e := send_word0_extended a h hx
    have hext : recv_extended (send_word0 a) = true := by
      rw [recv_extended_eq, e]
      have h4 : (a * 8 + 5) / 4 % 2 = 1 := by omega
      simp [h4]
    have hshift : send_word0 a >>> 3 = a := by
      rw [e, Nat.shiftRight_eq_div_pow]; norm_num; omega
    refine ⟨?_, hlt, ?_, hext, ?_, hshift⟩
    · rw [e, or_low_bits a 5 3 (by norm_num)]; norm_num
    · rw [e]; omega
    · rw [hshift]; exact hrt
  · intro hx
    have e := send_word0_normal a hx
    have hext : recv_extended (send_word0 a) = false := by
      rw [recv_extended_eq, e]
      have h4 : ¬ ((a * 2097152 + 1) / 4 % 2 = 1) := by omega
      simp [h4]
    have hshift : send_word0 a >>> 21 = a := by
      rw [e, Nat.shiftRight_eq_div_pow]; norm_num; omega
    refine ⟨?_, hlt, ?_, ?_, hext, ?_, hshift⟩
    · rw [e, or_low_bits a 1 21 (by norm_num)]; norm_num
    · rw [e]; omega
    · rw [e]; omega
    · rw [hshift]; exact hrt

/-- C2, witness: the address word of the extended address 0x18DAF110 is
0xC6D78885 and decodes back to the address; the address word of the normal
address 0x7E8 is 0xFD000001 and decodes back to the address. -/
theorem address_word_round_trip_witness :
    (0x18DAF110 < 2 ^ 29 ∧ 0x800 ≤ 0x18DAF110 ∧ send_word0 0x18DAF110 = 0xC6D78885
      ∧ recv_address 0xC6D78885 = 0x18DAF110
      ∧ (send_word0 0x18DAF110 = (0x18DAF110 <<< 3) ||| 5 ∧ send_word0 0x18DAF110 < 2 ^ 32
        ∧ send_word0 0x18DAF110 % 8 = 5 ∧ recv_extended (send_word0 0x18DAF110) = true
        ∧ recv_address (send_word0 0x18DAF110) = send_word0 0x18DAF110 >>> 3
        ∧ send_word0 0x18DAF110 >>> 3 = 0x18DAF110))
    ∧ (0x7E8 < 2 ^ 29 ∧ 0x7E8 < 0x800 ∧ send_word0 0x7E8 = 0xFD000001
      ∧ (send_word0 0x7E8 = (0x7E8 <<< 21) ||| 1 ∧ send_word0 0x7E8 < 2 ^ 32
        ∧ send_word0 0x7E8 % 4 = 1 ∧ send_word0 0x7E8 / 4 % 2 = 0
        ∧ recv_extended (send_word0 0x7E8) = false
        ∧ recv_address (send_word0 0x7E8) = send_word0 0x7E8 >>> 21
        ∧ send_word0 0x7E8 >>> 21 = 0x7E8)) :=
  ⟨⟨by decide, by decide, by decide, by decide,
    (address_word_round_trip 0x18DAF110 (by decide)).1 (by decide)⟩,
   ⟨by decide, by decide, by decide,
    (address_word_round_trip 0x7E8 (by decide)).2 (by decide)⟩⟩

/-! ## The send buffer -/

/-- C8, the code at a batch whose first frame has length nibble 15: the
decoder does not skip the frame; it yields 15 data bytes for it, the last 7
taken from the slot of the next frame. -/
theorem can_recv_reads_past_slot :
    oversized_batch.length = 32
      ∧ recv_len (word oversized_batch 1) = 15
      ∧ can_recv_frames oversized_batch 32
          = some [{ address := 0, busTime := 0, src := 0,
                    dat := [1, 2, 3, 4, 5, 6, 7, 8, 0xA1, 0xA2, 0xA3, 0xA4, 0x12, 0xB2, 0xB3] },
                  { address := 0x525, busTime := 0xB4B3, src := 0x21, dat := [9, 9] }]
      ∧ (can_recv_frame oversized_batch 0).dat.length = 15
      ∧ (can_recv_frame oversized_batch 0).dat.drop 8 = (oversized_batch.drop 16).take 7 := by
  decide

/-! ## The health report -/

/-- C7 (as the code has it): the published health record carries the voltage
and the current of the board's report unchanged, `started` true when
`spoofing_started` is set and the board's `started` otherwise, and the
board's `controls_allowed`, `gas_interceptor_detected` and
`started_signal_detected`; `started_alt` is not published: the record is the
same whatever `started_alt` is. The record is what `can_health` publishes
after a 13-byte read. -/
theorem can_health_publishes (g : Globals) (report : List Nat) (rc : Reconnect) :
    can_health_message g.spoofing_started (health_of_bytes report)
        = { voltage := word report 0
            current := word report 1
            started := g.spoofing_started || report.getD 8 0 != 0
            controlsAllowed := report.getD 9 0 != 0
            gasInterceptorDetected := report.getD 10 0 != 0
            startedSignalDetected := report.getD 11 0 != 0 }
      ∧ (∀ alt, can_health_message g.spoofing_started
            { health_of_bytes report with started_alt := alt }
          = can_health_message g.spoofing_started (health_of_bytes report))
      ∧ can_health g [⟨13, rc⟩] report
          = ([.lock, .control 0xc0 0xd2 0 13, .unlock,
              .publish_health
                (can_health_message g.spoofing_started (health_of_bytes report))], true) := by
  refine ⟨?_, ?_, ?_⟩
  · cases hsp : g.spoofing_started <;> simp [can_health_message, health_of_bytes]
  · intro alt
    rfl
  · simp [can_health, can_health_loop, can_health_round]

/-- C7 fails as stated: two reports of the board that differ in `started_alt`
only are published as the same record, so no field of the published record
carries `started_alt`. -/
theorem started_alt_not_published :
    health_sample.started_alt ≠ ({ health_sample with started_alt := 7 } : health).started_alt
      ∧ can_health_message false health_sample
          = can_health_message false { health_sample with started_alt := 7 }
      ∧ ¬ ∃ read : HealthData → Nat,
          ∀ h : health, read (can_health_message false h) = h.started_alt := by
  refine ⟨by decide, by decide, ?_⟩
  rintro ⟨read, hread⟩
  have h1 := hread health_sample
  have h2 := hread { health_sample with started_alt := 7 }
  have e : can_health_message false health_sample
      = can_health_message false { health_sample with started_alt := 7 } := by decide
  rw [← e, h1] at h2
  exact absurd h2 (by decide)

/-! ## The lock discipline -/

theorem locked_ok_append (held : Bool) (t1 t2 : List Action) :
    locked_ok held (t1 ++ t2) = (locked_ok held t1 && locked_ok (held_after held t1) t2) := by
  induction t1 generalizing held with
  | nil => simp [locked_ok, held_after]
  | cons a t1 ih =>
    cases a <;> simp [locked_ok, held_after, ih, Bool.and_assoc]

theorem held_after_append (held : Bool) (t1 t2 : List Action) :
    held_after held (t1 ++ t2) = held_after (held_after held t1) t2 := by
  induction t1 generalizing held with
  | nil => simp [held_after]
  | cons a t1 ih =>
    cases a <;> simp [held_after, ih]

theorem locked_ok_initial (held : Bool) (p t : List Action) (hp : p <+: t)
    (h : locked_ok held t = true) : locked_ok held p = true := by
  obtain ⟨s, rfl⟩ := hp
  rw [locked_ok_append, Bool.and_eq_true] at h
  exact h.1

theorem lock_free_append (t1 t2 : List Action) :
    lock_free (t1 ++ t2) = (lock_free t1 && lock_free t2) := by
  simp [lock_free, List.all_append]

theorem held_after_lock_free (held : Bool) (t : List Action) (h : lock_free t = true) :
    held_after held t = held := by
  induction t generalizing held with
  | nil => rfl
  | cons a t ih =>
    have ht : lock_free t = true := by
      simp only [lock_free, List.all_cons, Bool.and_eq_true] at h ⊢
      exact h.2
    cases a <;> first
      | (simp [lock_free] at h; done)
      | (simp only [held_after]; exact ih held ht)

theorem locked_ok_lock_free (t : List Action) (h : lock_free t = true) :
    locked_ok true t = true := by
  induction t with
  | nil => rfl
  | cons a t ih =>
    have ht : lock_free t = true := by
      simp only [lock_free, List.all_cons, Bool.and_eq_true] at h ⊢
      exact h.2
    cases a <;> first
      | (simp [lock_free] at h; done)
      | (simp [locked_ok, ih ht])

/-! ## The actions of connecting -/

theorem safety_codes_ok_append (t1 t2 : List Action) :
    safety_codes_ok (t1 ++ t2) = (safety_codes_ok t1 && safety_codes_ok t2) := by
  simp [safety_codes_ok, List.all_append]

theorem usb_connect_arm_quiet (g : Globals) :
    lock_free (usb_connect_arm g) = true ∧ safety_codes_ok (usb_connect_arm g) = true := by
  cases g with
  | mk sp fs lb x => cases lb <;> cases x <;> exact ⟨rfl, rfl⟩

theorem usb_connect_quiet (g : Globals) (handle : Int) (r : ConnectResult) (tid : Nat) :
    lock_free (usb_connect g handle r tid).2.2 = true
      ∧ safety_codes_ok (usb_connect g handle r tid).2.2 = true := by
  have ha := usb_connect_arm_quiet g
  cases r
  · exact ⟨rfl, rfl⟩
  · exact ⟨rfl, rfl⟩
  · exact ⟨rfl, rfl⟩
  · unfold usb_connect
    by_cases hh : handle = -1
    · simp only [hh, if_true, lock_free_append, safety_codes_ok_append, ha.1, ha.2]
      exact ⟨rfl, rfl⟩
    · simp only [hh, if_false, lock_free_append, safety_codes_ok_append, ha.1, ha.2]
      exact ⟨rfl, rfl⟩

theorem usb_retry_loop_quiet (g : Globals) (handle : Int) (tid : Nat)
    (rs : List ConnectResult) :
    lock_free (usb_retry_loop g handle tid rs).1 = true
      ∧ safety_codes_ok (usb_retry_loop g handle tid rs).1 = true := by
  induction rs generalizing handle with
  | nil => exact ⟨rfl, rfl⟩
  | cons r rs ih =>
    have hc := usb_connect_quiet g handle r tid
    unfold usb_retry_loop
    split
    · exact hc
    · have hi := ih (usb_connect g handle r tid).2.1
      simp only [lock_free_append, safety_codes_ok_append, hc.1, hc.2, hi.1, hi.2]
      exact ⟨rfl, rfl⟩

theorem usb_retry_connect_quiet (g : Globals) (rc : Reconnect) :
    lock_free (usb_retry_connect g rc).1 = true
      ∧ safety_codes_ok (usb_retry_connect g rc).1 = true := by
  have hl := usb_retry_loop_quiet g rc.handle rc.tid rc.attempts
  unfold usb_retry_connect
  simp only [lock_free_append, safety_codes_ok_append, hl.1, hl.2]
  split <;> exact ⟨rfl, rfl⟩

theorem handle_usb_issue_quiet (g : Globals) (err : Int) (rc : Reconnect) :
    lock_free (handle_usb_issue g err rc).1 = true
      ∧ safety_codes_ok (handle_usb_issue g err rc).1 = true := by
  have hl := usb_retry_connect_quiet g rc
  unfold handle_usb_issue
  split
  · simp only [lock_free_append, safety_codes_ok_append, hl.1, hl.2]
    exact ⟨by simp [lock_free], by simp [safety_codes_ok, Action.safety_code_ok]⟩
  · exact ⟨by simp [lock_free], by simp [safety_codes_ok, Action.safety_code_ok]⟩

/-! ## The actions of the pumps -/

theorem can_recv_round_quiet (g : Globals) (r : BulkResult) :
    lock_free (can_recv_round g r).1 = true
      ∧ safety_codes_ok (can_recv_round g r).1 = true := by
  have hi := handle_usb_issue_quiet g r.err r.reconnect
  unfold can_recv_round
  split
  · split
    · split
      · simp only [lock_free_append, safety_codes_ok_append, hi.1, hi.2]
        exact ⟨rfl, rfl⟩
      · simp only [lock_free_append, safety_codes_ok_append, hi.1, hi.2]
        exact ⟨rfl, rfl⟩
    · simp only [lock_free_append, safety_codes_ok_append, hi.1, hi.2]
      exact ⟨rfl, rfl⟩
  · exact ⟨rfl, rfl⟩

theorem can_recv_loop_quiet (g : Globals) (rs : List BulkResult) :
    lock_free (can_recv_loop g rs).1 = true
      ∧ safety_codes_ok (can_recv_loop g rs).1 = true := by
  induction rs with
  | nil => exact ⟨rfl, rfl⟩
  | cons r rs ih =>
    have hr := can_recv_round_quiet g r
    unfold can_recv_loop
    split
    · exact hr
    · split
      · exact hr
      · split
        · simp only [lock_free_append, safety_codes_ok_append, hr.1, hr.2, ih.1, ih.2]
          exact ⟨rfl, rfl⟩
        · exact hr

theorem can_health_round_quiet (g : Globals) (r : ControlResult) :
    lock_free (can_health_round g r).1 = true
      ∧ safety_codes_ok (can_health_round g r).1 = true := by
  have hi := handle_usb_issue_quiet g r.cnt r.reconnect
  unfold can_health_round
  split
  · simp only [lock_free_append, safety_codes_ok_append, hi.1, hi.2]
    exact ⟨rfl, rfl⟩
  · exact ⟨rfl, rfl⟩

theorem can_health_loop_quiet (g : Globals) (rs : List ControlResult) :
    lock_free (can_health_loop g rs).1 = true
      ∧ safety_codes_ok (can_health_loop g rs).1 = true := by
  induction rs with
  | nil => exact ⟨rfl, rfl⟩
  | cons r rs ih =>
    have hr := can_health_round_quiet g r
    unfold can_health_loop
    split
    · exact hr
    · split
      · simp only [lock_free_append, safety_codes_ok_append, hr.1, hr.2, ih.1, ih.2]
        exact ⟨rfl, rfl⟩
      · exact hr

theorem can_send_round_quiet (g : Globals) (send : List Nat) (msg_count : Nat)
    (r : BulkResult) :
    lock_free (can_send_round g send msg_count r).1 = true
      ∧ safety_codes_ok (can_send_round g send msg_count r).1 = true := by
  have hi := handle_usb_issue_quiet g r.err r.reconnect
  unfold can_send_round
  split
  · simp only [lock_free_append, safety_codes_ok_append, hi.1, hi.2]
    exact ⟨rfl, rfl⟩
  · exact ⟨rfl, rfl⟩

theorem can_send_loop_quiet (g : Globals) (send : List Nat) (msg_count : Nat)
    (rs : List BulkResult) :
    lock_free (can_send_loop g send msg_count rs).1 = true
      ∧ safety_codes_ok (can_send_loop g send msg_count rs).1 = true := by
  induction rs with
  | nil => exact ⟨rfl, rfl⟩
  | cons r rs ih =>
    have hr := can_send_round_quiet g send msg_count r
    unfold can_send_loop
    split
    · exact hr
    · split
      · simp only [lock_free_append, safety_codes_ok_append, hr.1, hr.2, ih.1, ih.2]
        exact ⟨rfl, rfl⟩
      · exact hr

/-! ## The lock discipline of a pump and of a thread -/

theorem locked_section (pre body tail : List Action) (h1 : locked_ok false pre = true)
    (h2 : held_after false pre = true) (h : lock_free body = true) :
    locked_ok false (pre ++ body ++ tail) = locked_ok true tail
      ∧ held_after false (pre ++ body ++ tail) = held_after true tail
      ∧ locked_ok false (pre ++ body) = true := by
  refine ⟨?_, ?_, ?_⟩
  · rw [locked_ok_append, locked_ok_append, held_after_append, h1, h2,
      locked_ok_lock_free body h, held_after_lock_free true body h]
    rfl
  · rw [held_after_append, held_after_append, h2, held_after_lock_free true body h]
  · rw [locked_ok_append, h1, h2, locked_ok_lock_free body h]
    rfl

theorem can_recv_disciplined (g : Globals) (rs : List BulkResult) (data : List Nat) :
    disciplined (can_recv g rs data) := by
  have hq := can_recv_loop_quiet g rs
  have hs := fun tail => locked_section [.lock] (can_recv_loop g rs).1 tail rfl rfl hq.1
  have hc : safety_codes_ok ([Action.lock] ++ (can_recv_loop g rs).1) = true := by
    rw [safety_codes_ok_append, hq.2]; rfl
  unfold can_recv disciplined
  split
  · exact ⟨(hs []).2.2, fun hf => absurd hf (by simp), hc⟩
  · split
    · refine ⟨(hs [.unlock]).1.trans rfl, fun _ => (hs [.unlock]).2.1.trans rfl, ?_⟩
      show safety_codes_ok (_ ++ _) = true
      rw [safety_codes_ok_append, hc]; rfl
    · rename_i frames _
      refine ⟨(hs [.unlock, .publish_can frames]).1.trans rfl,
        fun _ => (hs [.unlock, .publish_can frames]).2.1.trans rfl, ?_⟩
      show safety_codes_ok (_ ++ _) = true
      rw [safety_codes_ok_append, hc]; rfl

theorem can_health_disciplined (g : Globals) (rs : List ControlResult) (report : List Nat) :
    disciplined (can_health g rs report) := by
  have hq := can_health_loop_quiet g rs
  have hs := fun tail => locked_section [.lock] (can_health_loop g rs).1 tail rfl rfl hq.1
  have hc : safety_codes_ok ([Action.lock] ++ (can_health_loop g rs).1) = true := by
    rw [safety_codes_ok_append, hq.2]; rfl
  unfold can_health disciplined
  split
  · refine ⟨(hs _).1.trans rfl, fun _ => (hs _).2.1.trans rfl, ?_⟩
    show safety_codes_ok (_ ++ _) = true
    rw [safety_codes_ok_append, hc]; rfl
  · exact ⟨(hs []).2.2, fun hf => absurd hf (by simp), hc⟩

theorem can_send_disciplined (g : Globals) (acc : Accessors) (event : Event)
    (rs : List BulkResult) : disciplined (can_send g acc event rs) := by
  unfold can_send disciplined
  split
  · rename_i msg_count send _ _
    have hq := can_send_loop_quiet g send msg_count rs
    have hs := fun tail => locked_section [.zmq_recv, .lock]
      (can_send_loop g send msg_count rs).1 tail rfl rfl hq.1
    have hc : safety_codes_ok ([Action.zmq_recv, Action.lock]
        ++ (can_send_loop g send msg_count rs).1) = true := by
      rw [safety_codes_ok_append, hq.2]; rfl
    split
    · exact ⟨rfl, fun _ => rfl, rfl⟩
    · split
      · refine ⟨(hs [.unlock]).1.trans rfl, fun _ => (hs [.unlock]).2.1.trans rfl, ?_⟩
        show safety_codes_ok (_ ++ _) = true
        rw [safety_codes_ok_append, hc]; rfl
      · exact ⟨(hs []).2.2, fun hf => absurd hf (by simp), hc⟩
  · exact ⟨rfl, fun hf => absurd hf (by simp), rfl⟩

theorem thread_loop_disciplined {ε : Type} (body : ε → List Action × Bool)
    (pause : List Action) (hb : ∀ e, disciplined (body e))
    (hp1 : locked_ok false pause = true) (hp2 : held_after false pause = false)
    (hp3 : safety_codes_ok pause = true) (es : List ε) :
    disciplined (thread_loop body pause es) := by
  induction es with
  | nil => exact ⟨rfl, fun _ => rfl, rfl⟩
  | cons e es ih =>
    obtain ⟨b1, b2, b3⟩ := hb e
    obtain ⟨i1, i2, i3⟩ := ih
    unfold thread_loop disciplined
    split
    · rename_i hret
      have hh := b2 hret
      refine ⟨?_, fun hr => ?_, ?_⟩
      · show locked_ok false (_ ++ _ ++ _) = true
        rw [locked_ok_append, locked_ok_append, held_after_append, b1, hh, hp1, hp2, i1]
        rfl
      · show held_after false (_ ++ _ ++ _) = false
        rw [held_after_append, held_after_append, hh, hp2]
        exact i2 hr
      · show safety_codes_ok (_ ++ _ ++ _) = true
        rw [safety_codes_ok_append, safety_codes_ok_append, b3, hp3, i3]
        rfl
    · exact ⟨b1, fun hf => absurd hf (by simp), b3⟩

/-! ## The threads -/

theorem idle_append (t1 t2 : List Action) (h1 : locked_ok false t1 = true)
    (h2 : held_after false t1 = false) :
    locked_ok false (t1 ++ t2) = locked_ok false t2
      ∧ held_after false (t1 ++ t2) = held_after false t2 := by
  constructor
  · rw [locked_ok_append, h1, h2]; rfl
  · rw [held_after_append, h2]

theorem empty_polls_idle (polls : Nat) :
    locked_ok false (List.replicate polls empty_poll).flatten = true
      ∧ held_after false (List.replicate polls empty_poll).flatten = false
      ∧ safety_codes_ok (List.replicate polls empty_poll).flatten = true := by
  induction polls with
  | zero => exact ⟨rfl, rfl, rfl⟩
  | succ n ih =>
    rw [List.replicate_succ, List.flatten_cons]
    have hi := idle_append empty_poll (List.replicate n empty_poll).flatten rfl rfl
    refine ⟨hi.1.trans ih.1, hi.2.trans ih.2.1, ?_⟩
    rw [safety_codes_ok_append, ih.2.2]; rfl

theorem safety_switch_idle (m : SafetyModels) :
    locked_ok false (safety_switch m).2 = true ∧ held_after false (safety_switch m).2 = false
      ∧ safety_codes_ok (safety_switch m).2 = true
      ∧ ((safety_switch m).1 = 0 ∨ (safety_switch m).1 = 1 ∨ (safety_switch m).1 = 2
          ∨ (safety_switch m).1 = 0xE327) := by
  cases m <;> exact ⟨rfl, rfl, rfl, by decide⟩

theorem safety_setter_thread_disciplined (o : ParamsOutcome) :
    locked_ok false (safety_setter_thread o) = true
      ∧ safety_codes_ok (safety_setter_thread o) = true := by
  cases o with
  | exit polls =>
    have hp := empty_polls_idle polls
    unfold safety_setter_thread
    constructor
    · exact (idle_append [Action.log LogMsg.waiting_for_params] _ rfl rfl).1.trans hp.1
    · rw [safety_codes_ok_append, hp.2.2]; rfl
  | params polls m =>
    have hp := empty_polls_idle polls
    have hm := safety_switch_idle m
    have a1 := idle_append [Action.log LogMsg.waiting_for_params]
      (List.replicate polls empty_poll).flatten rfl rfl
    have a2 := idle_append ([Action.log LogMsg.waiting_for_params]
      ++ (List.replicate polls empty_poll).flatten)
      [.read_db_value, .log .got_car_params, .log .setting_safety_model]
      (a1.1.trans hp.1) (a1.2.trans hp.2.1)
    have a3 := idle_append (([Action.log LogMsg.waiting_for_params]
      ++ (List.replicate polls empty_poll).flatten)
      ++ [.read_db_value, .log .got_car_params, .log .setting_safety_model])
      (safety_switch m).2 (a2.1.trans rfl) (a2.2.trans rfl)
    have a4 := idle_append ((([Action.log LogMsg.waiting_for_params]
      ++ (List.replicate polls empty_poll).flatten)
      ++ [.read_db_value, .log .got_car_params, .log .setting_safety_model])
      ++ (safety_switch m).2)
      [.lock, .reset_safety_handle, .control 0x40 0xdc (safety_switch m).1 0, .unlock]
      (a3.1.trans hm.1) (a3.2.trans hm.2.1)
    unfold safety_setter_thread
    constructor
    · exact a4.1.trans rfl
    · rw [safety_codes_ok_append, safety_codes_ok_append, safety_codes_ok_append,
        safety_codes_ok_append, hp.2.2, hm.2.2.1]
      rcases hm.2.2.2 with h | h | h | h <;> rw [h] <;> rfl

theorem started_thread_disciplined (r : List Action × Bool) (h : disciplined r) :
    disciplined ([Action.log LogMsg.start_thread] ++ r.1, r.2) := by
  obtain ⟨h1, h2, h3⟩ := h
  have hi := idle_append [Action.log LogMsg.start_thread] r.1 rfl rfl
  refine ⟨hi.1.trans h1, fun hr => hi.2.trans (h2 hr), ?_⟩
  show safety_codes_ok (_ ++ _) = true
  rw [safety_codes_ok_append, h3]; rfl

theorem can_recv_thread_disciplined (g : Globals)
    (rounds : List (List BulkResult × List Nat)) :
    disciplined (can_recv_thread g rounds) :=
  started_thread_disciplined _ (thread_loop_disciplined (fun e => can_recv g e.1 e.2)
    [.usleep 5000] (fun e => can_recv_disciplined g e.1 e.2) rfl rfl rfl rounds)

theorem can_send_thread_disciplined (g : Globals) (acc : Accessors)
    (rounds : List (Event × List BulkResult)) : disciplined (can_send_thread g acc rounds) :=
  started_thread_disciplined _ (thread_loop_disciplined (fun e => can_send g acc e.1 e.2) []
    (fun e => can_send_disciplined g acc e.1 e.2) rfl rfl rfl rounds)

theorem can_health_thread_disciplined (g : Globals)
    (rounds : List (List ControlResult × List Nat)) :
    disciplined (can_health_thread g rounds) :=
  started_thread_disciplined _ (thread_loop_disciplined (fun e => can_health g e.1 e.2)
    [.usleep 1000000] (fun e => can_health_disciplined g e.1 e.2) rfl rfl rfl rounds)

theorem thermal_rounds_disciplined (fan_speeds : List Nat) :
    locked_ok false (fan_speeds.map thermal_round).flatten = true
      ∧ held_after false (fan_speeds.map thermal_round).flatten = false
      ∧ safety_codes_ok (fan_speeds.map thermal_round).flatten = true := by
  induction fan_speeds with
  | nil => exact ⟨rfl, rfl, rfl⟩
  | cons e es ih =>
    rw [List.map_cons, List.flatten_cons]
    have hi := idle_append (thermal_round e) (es.map thermal_round).flatten rfl rfl
    refine ⟨hi.1.trans ih.1, hi.2.trans ih.2.1, ?_⟩
    rw [safety_codes_ok_append, ih.2.2]; rfl

theorem thermal_thread_dropLast (fan_speeds : List Nat) :
    (thermal_thread fan_speeds).dropLast
      = [.log .start_thread] ++ (fan_speeds.map thermal_round).flatten := by
  unfold thermal_thread
  exact List.dropLast_concat

theorem thermal_thread_safety_codes (fan_speeds : List Nat) :
    safety_codes_ok (thermal_thread fan_speeds) = true := by
  unfold thermal_thread
  rw [safety_codes_ok_append, safety_codes_ok_append,
    (thermal_rounds_disciplined fan_speeds).2.2]
  rfl

/-! ## The first connect in `main` -/

theorem transfers_before_threads_of_transfer_free (t : List Action)
    (h : transfer_free t = true) : transfers_before_threads t = true := by
  induction t with
  | nil => rfl
  | cons a t ih =>
    have ht : transfer_free t = true := by
      simp only [transfer_free, List.all_cons, Bool.and_eq_true] at h ⊢
      exact h.2
    cases a <;> first
      | exact ih ht
      | exact ht

theorem transfers_before_threads_append (t1 t2 : List Action) (h : create_free t1 = true) :
    transfers_before_threads (t1 ++ t2) = transfers_before_threads t2 := by
  induction t1 with
  | nil => rfl
  | cons a t1 ih =>
    have ht : create_free t1 = true := by
      simp only [create_free, List.all_cons, Bool.and_eq_true] at h ⊢
      exact h.2
    cases a <;> first
      | (simp [create_free, Action.is_create] at h; done)
      | exact ih ht

theorem create_free_append (t1 t2 : List Action) :
    create_free (t1 ++ t2) = (create_free t1 && create_free t2) := by
  simp [create_free, List.all_append]

theorem transfer_free_append (t1 t2 : List Action) :
    transfer_free (t1 ++ t2) = (transfer_free t1 && transfer_free t2) := by
  simp [transfer_free, List.all_append]

theorem usb_connect_arm_create_free (g : Globals) : create_free (usb_connect_arm g) = true := by
  cases g with
  | mk sp fs lb x => cases lb <;> cases x <;> rfl

theorem usb_connect_then (g : Globals) (handle : Int) (r : ConnectResult) (tid : Nat)
    (tail : List Action) (ht : transfer_free tail = true) :
    ((usb_connect g handle r tid).1 = true →
      transfers_before_threads ((usb_connect g handle r tid).2.2 ++ tail) = true)
    ∧ ((usb_connect g handle r tid).1 = false →
      create_free (usb_connect g handle r tid).2.2 = true) := by
  have ha := usb_connect_arm_create_free g
  have hpre : create_free ([Action.open_device, .set_configuration, .claim_interface]
      ++ usb_connect_arm g) = true := by
    rw [create_free_append, ha]; rfl
  cases r
  · exact ⟨fun h => absurd h (by simp [usb_connect]), fun _ => rfl⟩
  · exact ⟨fun h => absurd h (by simp [usb_connect]), fun _ => rfl⟩
  · exact ⟨fun h => absurd h (by simp [usb_connect]), fun _ => rfl⟩
  · unfold usb_connect
    by_cases hh : handle = -1
    · simp only [hh, if_true]
      refine ⟨fun _ => ?_, fun h => absurd h (by simp)⟩
      rw [List.append_assoc, transfers_before_threads_append _ _ hpre]
      exact ht
    · simp only [hh, if_false]
      refine ⟨fun _ => ?_, fun h => absurd h (by simp)⟩
      rw [transfers_before_threads_append _ _ hpre]
      exact transfers_before_threads_of_transfer_free tail ht

theorem usb_retry_loop_then (g : Globals) (handle : Int) (tid : Nat)
    (rs : List ConnectResult) (tail : List Action) (ht : transfer_free tail = true) :
    transfers_before_threads ((usb_retry_loop g handle tid rs).1 ++ tail) = true := by
  induction rs generalizing handle with
  | nil => exact transfers_before_threads_of_transfer_free tail ht
  | cons r rs ih =>
    have hc := usb_connect_then g handle r tid tail ht
    unfold usb_retry_loop
    split
    · rename_i hok
      exact hc.1 hok
    · rename_i hok
      have hf := hc.2 (by simpa using hok)
      have hpre : create_free ((usb_connect g handle r tid).2.2 ++ [Action.usleep 100000])
          = true := by
        rw [create_free_append, hf]; rfl
      show transfers_before_threads (_ ++ _ ++ _ ++ _) = true
      rw [List.append_assoc, transfers_before_threads_append _ _ hpre]
      exact ih _

theorem main_thread_unlocked (g : Globals) (attempts : List ConnectResult) (tid : Nat) :
    lock_free (main_thread g attempts tid).1 = true
      ∧ safety_codes_ok (main_thread g attempts tid).1 = true
      ∧ transfers_before_threads (main_thread g attempts tid).1 = true := by
  have hq := usb_retry_connect_quiet g ⟨-1, attempts, tid⟩
  have hloop := usb_retry_loop_then g (-1) tid attempts
  unfold main_thread
  split
  · rename_i hdone
    refine ⟨?_, ?_, ?_⟩
    · show lock_free (_ ++ _ ++ _) = true
      rw [lock_free_append, lock_free_append, hq.1]; rfl
    · show safety_codes_ok (_ ++ _ ++ _) = true
      rw [safety_codes_ok_append, safety_codes_ok_append, hq.2]; rfl
    · have hd : (usb_retry_loop g (-1) tid attempts).2 = true := hdone
      show transfers_before_threads (_ ++ _ ++ _) = true
      unfold usb_retry_connect
      simp only [hd, if_true, List.append_assoc]
      rw [transfers_before_threads_append _ _ (show create_free
        [Action.log LogMsg.starting_boardd, Action.libusb_init] = true from rfl),
        transfers_before_threads_append _ _ (show create_free
        [Action.log LogMsg.attempting_to_connect] = true from rfl)]
      exact hloop _ rfl
  · refine ⟨?_, ?_, ?_⟩
    · show lock_free (_ ++ _) = true
      rw [lock_free_append, hq.1]; rfl
    · show safety_codes_ok (_ ++ _) = true
      rw [safety_codes_ok_append, hq.2]; rfl
    · show transfers_before_threads (_ ++ _) = true
      unfold usb_retry_connect
      simp only [List.append_assoc]
      rw [transfers_before_threads_append _ _ (show create_free
        [Action.log LogMsg.starting_boardd, Action.libusb_init] = true from rfl),
        transfers_before_threads_append _ _ (show create_free
        [Action.log LogMsg.attempting_to_connect] = true from rfl)]
      refine hloop _ ?_
      split <;> rfl

/-! ## The life of the safety gate -/

theorem gates_created_append (t1 t2 : List Action) :
    gates_created (t1 ++ t2) = gates_created t1 + gates_created t2 := by
  simp [gates_created, List.count_append]

theorem gates_created_arm (g : Globals) : gates_created (usb_connect_arm g) = 0 := by
  cases g with
  | mk sp fs lb x => cases lb <;> cases x <;> rfl

theorem usb_connect_spawn (g : Globals) (handle : Int) (r : ConnectResult) (tid : Nat) :
    (r = .connected ∧ handle = -1 →
      gates_created (usb_connect g handle r tid).2.2 = 1
        ∧ (usb_connect g handle r tid).2.1 = (tid : Int))
    ∧ (¬ (r = .connected ∧ handle = -1) →
      gates_created (usb_connect g handle r tid).2.2 = 0
        ∧ (usb_connect g handle r tid).2.1 = handle) := by
  have ha := gates_created_arm g
  cases r
  · exact ⟨fun h => absurd h.1 (by simp), fun _ => ⟨rfl, rfl⟩⟩
  · exact ⟨fun h => absurd h.1 (by simp), fun _ => ⟨rfl, rfl⟩⟩
  · exact ⟨fun h => absurd h.1 (by simp), fun _ => ⟨rfl, rfl⟩⟩
  · by_cases hh : handle = -1
    · have e : usb_connect g handle .connected tid
          = (true, (tid : Int),
              [.open_device, .set_configuration, .claim_interface] ++ usb_connect_arm g
                ++ [.pthread_create .safety_setter]) := by
        unfold usb_connect
        exact if_pos hh
      rw [e]
      refine ⟨fun _ => ⟨?_, rfl⟩, fun h => absurd ⟨rfl, hh⟩ h⟩
      show gates_created (_ ++ _ ++ _) = 1
      rw [gates_created_append, gates_created_append, ha]
      rfl
    · have e : usb_connect g handle .connected tid
          = (true, handle,
              [.open_device, .set_configuration, .claim_interface] ++ usb_connect_arm g) := by
        unfold usb_connect
        exact if_neg hh
      rw [e]
      refine ⟨fun h => absurd h.2 hh, fun _ => ⟨?_, rfl⟩⟩
      show gates_created (_ ++ _) = 0
      rw [gates_created_append, ha]
      rfl

theorem gate_step_inv (g : Globals) (s : GateState) (e : GateEvent) (h : gate_inv s) :
    gate_inv (gate_step g s e) := by
  obtain ⟨h1, h2, h3⟩ := h
  cases e with
  | connect r tid =>
    have hc := usb_connect_spawn g s.safety_setter_thread_handle r tid
    by_cases hs : r = .connected ∧ s.safety_setter_thread_handle = -1
    · obtain ⟨c1, c2⟩ := hc.1 hs
      have ha := h1 hs.2
      have htid : ¬ ((tid : Int) = -1) := by omega
      rw [if_pos hs.2] at h3
      refine ⟨?_, ?_, ?_⟩
      · show (usb_connect g s.safety_setter_thread_handle r tid).2.1 = -1 → _
        rw [c2]
        exact fun h => absurd h htid
      · show s.alive + gates_created (usb_connect g s.safety_setter_thread_handle r tid).2.2 ≤ 1
        rw [c1]; omega
      · show s.spawned + gates_created (usb_connect g s.safety_setter_thread_handle r tid).2.2
            + (if (usb_connect g s.safety_setter_thread_handle r tid).2.1 = -1 then 1 else 0)
            ≤ s.finished + 1
        rw [c1, c2, if_neg htid]; omega
    · obtain ⟨c1, c2⟩ := hc.2 hs
      refine ⟨?_, ?_, ?_⟩
      · show (usb_connect g s.safety_setter_thread_handle r tid).2.1 = -1 →
          s.alive + gates_created (usb_connect g s.safety_setter_thread_handle r tid).2.2 = 0
        rw [c1, c2]
        exact h1
      · show s.alive + gates_created (usb_connect g s.safety_setter_thread_handle r tid).2.2 ≤ 1
        rw [c1]; exact h2
      · show s.spawned + gates_created (usb_connect g s.safety_setter_thread_handle r tid).2.2
            + (if (usb_connect g s.safety_setter_thread_handle r tid).2.1 = -1 then 1 else 0)
            ≤ s.finished + 1
        rw [c1, c2]; exact h3
  | gate_finishes =>
    by_cases ha : s.alive = 0
    · have e : gate_step g s .gate_finishes = s := if_pos ha
      rw [e]
      exact ⟨h1, h2, h3⟩
    · have hne : ¬ s.safety_setter_thread_handle = -1 := fun h => ha (h1 h)
      have e : gate_step g s .gate_finishes
          = { s with safety_setter_thread_handle := -1, alive := s.alive - 1,
                     finished := s.finished + 1 } := if_neg ha
      rw [e]
      rw [if_neg hne] at h3
      refine ⟨fun _ => ?_, ?_, ?_⟩
      · show s.alive - 1 = 0
        omega
      · show s.alive - 1 ≤ 1
        omega
      · show s.spawned + (if (-1 : Int) = -1 then 1 else 0) ≤ s.finished + 1 + 1
        rw [if_pos rfl]; omega
  | gate_exits =>
    by_cases ha : s.alive = 0
    · have e : gate_step g s .gate_exits = s := if_pos ha
      rw [e]
      exact ⟨h1, h2, h3⟩
    · have hne : ¬ s.safety_setter_thread_handle = -1 := fun h => ha (h1 h)
      have e : gate_step g s .gate_exits = { s with alive := s.alive - 1 } := if_neg ha
      rw [e]
      refine ⟨fun h => absurd h hne, ?_, h3⟩
      show s.alive - 1 ≤ 1
      omega

theorem gate_run_inv (g : Globals) (s : GateState) (events : List GateEvent)
    (h : gate_inv s) : gate_inv (gate_run g s events) := by
  induction events generalizing s with
  | nil => exact h
  | cons e es ih => exact ih _ (gate_step_inv g s e h)

theorem gate_inv_init : gate_inv GateState.init := by
  refine ⟨fun _ => rfl, by decide, by decide⟩

/-! ## The safety model sent to the board -/

theorem safety_code_of_mem (t : List Action) (h : safety_codes_ok t = true)
    (bt v l : Nat) (hm : Action.control bt 0xdc v l ∈ t) :
    v = 0 ∨ v = 1 ∨ v = 2 ∨ v = 0xE327 := by
  have ha := List.all_eq_true.mp h _ hm
  simp only [Action.safety_code_ok, bne_self_eq_false, Bool.false_or, Bool.or_eq_true,
    beq_iff_eq] at ha
  omega

/-- C3: the safety gate maps no_output to 0, honda to 1, toyota to 2 and
elm327 to 0xE327 and sends the mapped value in its transfer; and every control
transfer with `bRequest` 0xDC among the actions of any thread of the program
(the gate, a call of `usb_connect`, `main` with the first connect, the three
pumps with their reconnects, the fan thread) carries a `wValue` in
{0, 1, 2, 0xE327}. -/
theorem safety_transfers_carry_board_codes (g : Globals) :
    (safety_setting .NO_OUTPUT = 0 ∧ safety_setting .HONDA = 1 ∧ safety_setting .TOYOTA = 2
      ∧ safety_setting .ELM327 = 0xE327)
    ∧ (∀ polls m, Action.control 0x40 0xdc (safety_setting m) 0
        ∈ safety_setter_thread (.params polls m))
    ∧ (∀ o bt v l, Action.control bt 0xdc v l ∈ safety_setter_thread o →
        v = 0 ∨ v = 1 ∨ v = 2 ∨ v = 0xE327)
    ∧ (∀ handle r tid bt v l, Action.control bt 0xdc v l ∈ (usb_connect g handle r tid).2.2 →
        v = 0 ∨ v = 1 ∨ v = 2 ∨ v = 0xE327)
    ∧ (∀ attempts tid bt v l, Action.control bt 0xdc v l ∈ (main_thread g attempts tid).1 →
        v = 0 ∨ v = 1 ∨ v = 2 ∨ v = 0xE327)
    ∧ (∀ rounds bt v l, Action.control bt 0xdc v l ∈ (can_recv_thread g rounds).1 →
        v = 0 ∨ v = 1 ∨ v = 2 ∨ v = 0xE327)
    ∧ (∀ acc rounds bt v l, Action.control bt 0xdc v l ∈ (can_send_thread g acc rounds).1 →
        v = 0 ∨ v = 1 ∨ v = 2 ∨ v = 0xE327)
    ∧ (∀ rounds bt v l, Action.control bt 0xdc v l ∈ (can_health_thread g rounds).1 →
        v = 0 ∨ v = 1 ∨ v = 2 ∨ v = 0xE327)
    ∧ (∀ fan_speeds bt v l, Action.control bt 0xdc v l ∈ thermal_thread fan_speeds →
        v = 0 ∨ v = 1 ∨ v = 2 ∨ v = 0xE327) := by
  refine ⟨⟨rfl, rfl, rfl, rfl⟩, ?_, ?_, ?_, ?_, ?_, ?_, ?_, ?_⟩
  · intro polls m
    simp [safety_setter_thread, safety_setting]
  · intro o bt v l hm
    exact safety_code_of_mem _ (safety_setter_thread_disciplined o).2 bt v l hm
  · intro handle r tid bt v l hm
    exact safety_code_of_mem _ (usb_connect_quiet g handle r tid).2 bt v l hm
  · intro attempts tid bt v l hm
    exact safety_code_of_mem _ (main_thread_unlocked g attempts tid).2.1 bt v l hm
  · intro rounds bt v l hm
    exact safety_code_of_mem _ (can_recv_thread_disciplined g rounds).2.2 bt v l hm
  · intro acc rounds bt v l hm
    exact safety_code_of_mem _ (can_send_thread_disciplined g acc rounds).2.2 bt v l hm
  · intro rounds bt v l hm
    exact safety_code_of_mem _ (can_health_thread_disciplined g rounds).2.2 bt v l hm
  · intro fan_speeds bt v l hm
    exact safety_code_of_mem _ (thermal_thread_safety_codes fan_speeds) bt v l hm

/-- C3, witness: the transfer of the gate for the ELM327 model carries 0xE327,
one of the four codes. -/
theorem safety_transfers_carry_board_codes_witness :
    Action.control 0x40 0xdc 0xE327 0 ∈ safety_setter_thread (.params 0 .ELM327)
      ∧ ((0xE327 : Nat) = 0 ∨ (0xE327 : Nat) = 1 ∨ (0xE327 : Nat) = 2
          ∨ (0xE327 : Nat) = 0xE327) :=
  ⟨by decide,
   (safety_transfers_carry_board_codes plain_globals).2.2.1 (.params 0 .ELM327) 0x40 0xE327 0
     (by decide)⟩

/-- C4 (as the code has it): for an unknown safety model the gate logs it and
then, as for every model, takes the lock and issues the control transfer with
`bRequest` 0xDC; the value it carries is 0, the code of no_output, and it is
the only transfer of the gate. -/
theorem unknown_safety_model_sets_no_output (polls : Nat) :
    safety_setter_thread (.params polls .unknown)
        = [.log .waiting_for_params] ++ (List.replicate polls empty_poll).flatten
          ++ [.read_db_value, .log .got_car_params, .log .setting_safety_model]
          ++ [.log .unknown_safety_model]
          ++ [.lock, .reset_safety_handle, .control 0x40 0xdc 0 0, .unlock]
      ∧ (safety_setter_thread (.params polls .unknown)).filter Action.is_transfer
          = [.control 0x40 0xdc 0 0] := by
  refine ⟨rfl, ?_⟩
  have hp : (List.replicate polls empty_poll).flatten.filter Action.is_transfer = [] := by
    induction polls with
    | zero => rfl
    | succ n ih =>
      rw [List.replicate_succ, List.flatten_cons, List.filter_append, ih]
      rfl
  unfold safety_setter_thread
  rw [List.filter_append, List.filter_append, List.filter_append, List.filter_append, hp]
  rfl

/-- C4 fails as stated: with the parameters present at the first read and an
unknown safety model, the gate logs the model and issues a control transfer
with `bRequest` 0xDC. -/
theorem unknown_safety_model_transfer_issued :
    Action.log .unknown_safety_model ∈ safety_setter_thread (.params 0 .unknown)
      ∧ Action.control 0x40 0xdc 0 0 ∈ safety_setter_thread (.params 0 .unknown)
      ∧ (safety_setter_thread (.params 0 .unknown)).any Action.is_safety_transfer = true := by
  decide

/-- C5 (as the code has it): along every sequence of calls of `usb_connect`
and completions of gate threads, at most one gate thread is pending at any
time; while one is pending, or whenever the handle is not -1, no call of
`usb_connect` creates another; the gate resets the handle to -1 when it
finishes, and a call of `usb_connect` that goes through while the handle is -1
(the first connect, or a reconnect after the gate has finished) creates the
gate, so that the gates created are at most one more than the gates that have
finished. -/
theorem safety_gate_one_pending (g : Globals) (events : List GateEvent) :
    (gate_run g .init events).alive ≤ 1
    ∧ (gate_run g .init events).spawned ≤ (gate_run g .init events).finished + 1
    ∧ (∀ r tid, (gate_run g .init events).alive = 1
          ∨ (gate_run g .init events).safety_setter_thread_handle ≠ -1 →
        (gate_step g (gate_run g .init events) (.connect r tid)).spawned
          = (gate_run g .init events).spawned)
    ∧ (∀ tid, (gate_run g .init events).safety_setter_thread_handle = -1 →
        (gate_step g (gate_run g .init events) (.connect .connected tid)).spawned
          = (gate_run g .init events).spawned + 1)
    ∧ (∀ s : GateState, 0 < s.alive →
        (gate_step g s .gate_finishes).safety_setter_thread_handle = -1) := by
  obtain ⟨h1, h2, h3⟩ := gate_run_inv g .init events gate_inv_init
  refine ⟨h2, ?_, ?_, ?_, ?_⟩
  · split at h3 <;> omega
  · intro r tid hp
    have hne : ¬ (gate_run g .init events).safety_setter_thread_handle = -1 := by
      rcases hp with hp | hp
      · intro hh
        have := h1 hh
        omega
      · exact hp
    have hc := (usb_connect_spawn g (gate_run g .init events).safety_setter_thread_handle
      r tid).2 (fun h => hne h.2)
    show (gate_run g .init events).spawned + gates_created (usb_connect g
      (gate_run g .init events).safety_setter_thread_handle r tid).2.2 = _
    rw [hc.1]
    rfl
  · intro tid hh
    have hc := (usb_connect_spawn g (gate_run g .init events).safety_setter_thread_handle
      .connected tid).1 ⟨rfl, hh⟩
    show (gate_run g .init events).spawned + gates_created (usb_connect g
      (gate_run g .init events).safety_setter_thread_handle .connected tid).2.2 = _
    rw [hc.1]
  · intro s hs
    have ha : ¬ s.alive = 0 := by omega
    have e : gate_step g s .gate_finishes
        = { s with safety_setter_thread_handle := -1, alive := s.alive - 1,
                   finished := s.finished + 1 } := if_neg ha
    rw [e]

/-- C5, witness: after the first connect, a reconnect while the gate is pending
creates no gate. -/
theorem safety_gate_one_pending_witness :
    ((gate_run plain_globals .init [.connect .connected 1]).alive = 1
      ∨ (gate_run plain_globals .init [.connect .connected 1]).safety_setter_thread_handle
          ≠ -1)
    ∧ (gate_step plain_globals (gate_run plain_globals .init [.connect .connected 1])
          (.connect .connected 2)).spawned
        = (gate_run plain_globals .init [.connect .connected 1]).spawned :=
  ⟨Or.inl (by decide),
   (safety_gate_one_pending plain_globals [.connect .connected 1]).2.2.1 .connected 2
     (Or.inl (by decide))⟩

/-- C5 fails as stated: the first connect creates the gate, the gate finishes,
and the next reconnect creates the gate a second time. -/
theorem safety_gate_spawned_twice :
    (gate_run plain_globals .init [.connect .connected 1]).spawned = 1
      ∧ (gate_run plain_globals .init [.connect .connected 1, .gate_finishes]).spawned = 1
      ∧ (gate_run plain_globals .init
          [.connect .connected 1, .gate_finishes, .connect .connected 2]).spawned = 2
      ∧ Action.pthread_create .safety_setter
          ∈ (usb_connect plain_globals
              (gate_run plain_globals .init
                [.connect .connected 1, .gate_finishes]).safety_setter_thread_handle
              .connected 2).2.2 := by
  decide

/-! ## The write loop of the send pump -/

/-- The write loop of `can_send` ends at the first answer with `err == 0`,
whatever `sent` is, and goes on to the next transfer of the whole buffer after
an answer with `err != 0` (once a reconnect, if any, has gone through). -/
theorem can_send_loop_step (g : Globals) (send : List Nat) (msg_count : Nat)
    (r : BulkResult) (rs : List BulkResult) :
    (r.err = 0 →
      (can_send_loop g send msg_count (r :: rs)).2 = true
        ∧ (can_send_loop g send msg_count (r :: rs)).1
            = (can_send_round g send msg_count r).1)
    ∧ (r.err ≠ 0 → (can_send_round g send msg_count r).2 = true →
      can_send_loop g send msg_count (r :: rs)
        = ((can_send_round g send msg_count r).1 ++ (can_send_loop g send msg_count rs).1,
           (can_send_loop g send msg_count rs).2)) := by
  constructor
  · intro h0
    have hne : ¬ (r.err = -4) := by omega
    have hround : (can_send_round g send msg_count r).2 = true := by
      unfold can_send_round
      split
      · show (handle_usb_issue g r.err r.reconnect).2 = true
        unfold handle_usb_issue
        rw [if_neg hne]
      · rfl
    have hnf : ¬ ((can_send_round g send msg_count r).2 = false) := by
      rw [hround]; exact Bool.noConfusion
    have hn0 : ¬ (r.err ≠ 0) := fun h => h h0
    unfold can_send_loop
    rw [if_neg hnf, if_neg hn0]
    exact ⟨rfl, rfl⟩
  · intro h0 hround
    have hnf : ¬ ((can_send_round g send msg_count r).2 = false) := by
      rw [hround]; exact Bool.noConfusion
    have e : can_send_loop g send msg_count (r :: rs)
        = if (can_send_round g send msg_count r).2 = false then
            ((can_send_round g send msg_count r).1, false)
          else if r.err ≠ 0 then
            ((can_send_round g send msg_count r).1 ++ (can_send_loop g send msg_count rs).1,
             (can_send_loop g send msg_count rs).2)
          else ((can_send_round g send msg_count r).1, true) := rfl
    rw [e, if_neg hnf, if_pos h0]

/-- C9, the code at a partial write: with `fake_send` off and one frame to
send (16 bytes), the board answers the first transfer with `err = 0` and
`sent = 5`. The loop reports it to `handle_usb_issue` and ends: the buffer is
not sent again, although the board would take all 16 bytes at the next
transfer. -/
theorem can_send_accepts_short_write :
    plain_globals.fake_send = false
      ∧ can_send_msg_count shared_slot one_frame_envelope = some 1
      ∧ can_send_buffer shared_slot one_frame_envelope = some one_frame_buffer
      ∧ one_frame_buffer.length = 16
      ∧ can_send_loop plain_globals one_frame_buffer 1
          [⟨0, 5, quiet_reconnect⟩, ⟨0, 16, quiet_reconnect⟩]
          = ([.bulk_out 3 one_frame_buffer, .log (.usb_error 0)], true)
      ∧ can_send plain_globals shared_slot one_frame_envelope
          [⟨0, 5, quiet_reconnect⟩, ⟨0, 16, quiet_reconnect⟩]
          = ([.zmq_recv, .lock, .bulk_out 3 one_frame_buffer, .log (.usb_error 0), .unlock],
             true) := by
  decide

/-! ## The lock around the transfers -/

/-- C10 (as the code has it): every transfer of the safety gate, of the
receive, send and health pumps (the transfers of a reconnect inside them
included) and every setpoint transfer of the fan thread is issued while the
thread holds `usb_lock`: the lock discipline holds along every prefix of the
actions of these threads, the fan thread taken up to its last action. The
first connect in `main` takes no lock: all its transfers come before `main`
or `usb_connect` has created a thread. -/
theorem transfers_under_usb_lock (g : Globals) :
    (∀ o p, p <+: safety_setter_thread o → locked_ok false p = true)
    ∧ (∀ rounds p, p <+: (can_recv_thread g rounds).1 → locked_ok false p = true)
    ∧ (∀ acc rounds p, p <+: (can_send_thread g acc rounds).1 → locked_ok false p = true)
    ∧ (∀ rounds p, p <+: (can_health_thread g rounds).1 → locked_ok false p = true)
    ∧ (∀ fan_speeds p, p <+: (thermal_thread fan_speeds).dropLast →
        locked_ok false p = true)
    ∧ (∀ attempts tid, lock_free (main_thread g attempts tid).1 = true
        ∧ transfers_before_threads (main_thread g attempts tid).1 = true) := by
  refine ⟨?_, ?_, ?_, ?_, ?_, ?_⟩
  · intro o p hp
    exact locked_ok_initial false p _ hp (safety_setter_thread_disciplined o).1
  · intro rounds p hp
    exact locked_ok_initial false p _ hp (can_recv_thread_disciplined g rounds).1
  · intro acc rounds p hp
    exact locked_ok_initial false p _ hp (can_send_thread_disciplined g acc rounds).1
  · intro rounds p hp
    exact locked_ok_initial false p _ hp (can_health_thread_disciplined g rounds).1
  · intro fan_speeds p hp
    refine locked_ok_initial false p _ hp ?_
    rw [thermal_thread_dropLast]
    exact (idle_append [Action.log LogMsg.start_thread] _ rfl rfl).1.trans
      (thermal_rounds_disciplined fan_speeds).1
  · intro attempts tid
    exact ⟨(main_thread_unlocked g attempts tid).1, (main_thread_unlocked g attempts tid).2.2⟩

/-- C10, witness: a send round that loses the connection and reconnects keeps
all its transfers, those of the reconnect included, under the lock. -/
theorem transfers_under_usb_lock_witness :
    (can_send_thread plain_globals shared_slot
        [(one_frame_envelope, [⟨-4, 0, quiet_reconnect⟩, ⟨0, 16, quiet_reconnect⟩])]).1
      <+: (can_send_thread plain_globals shared_slot
        [(one_frame_envelope, [⟨-4, 0, quiet_reconnect⟩, ⟨0, 16, quiet_reconnect⟩])]).1
    ∧ locked_ok false (can_send_thread plain_globals shared_slot
        [(one_frame_envelope, [⟨-4, 0, quiet_reconnect⟩, ⟨0, 16, quiet_reconnect⟩])]).1
      = true :=
  ⟨List.prefix_refl _,
   (transfers_under_usb_lock plain_globals).2.2.1 shared_slot
     [(one_frame_envelope, [⟨-4, 0, quiet_reconnect⟩, ⟨0, 16, quiet_reconnect⟩])] _
     (List.prefix_refl _)⟩

/-- C10 fails as stated: the first connect in `main` issues its transfers
without the lock, and the fan thread issues the transfer that turns the fan
off after its last unlock. -/
theorem transfers_without_usb_lock :
    locked_ok false (main_thread plain_globals [.connected] 1).1 = false
      ∧ (main_thread plain_globals [.connected] 1).1.take 6
          = [.log .starting_boardd, .libusb_init, .log .attempting_to_connect,
             .open_device, .set_configuration, .claim_interface]
      ∧ (main_thread plain_globals [.connected] 1).1.get? 6 = some (.control 0xc0 0xd9 0 0)
      ∧ thermal_thread [0x8000]
          = [.log .start_thread, .zmq_recv, .lock, .control 0xc0 0xd3 0x8000 0, .unlock,
             .control 0xc0 0xd3 0 0]
      ∧ locked_ok false (thermal_thread [0x8000]) = false := by
  decide

end Boardd
